import Mathlib

/-!
Verification development for the Segmentation-Art repository.

The pixel engine of the repository (KonvaCanvas extraction, the api.ts mask
geometry helpers, and the SegmentArt document state) is shallowly embedded
below.  Images are rectangular RGBA grids; a pixel channel is a natural
number (the source stores channels in Uint8ClampedArray cells).  Canvas
pixel buffers are modelled as total functions from coordinates to RGBA so
that fresh buffers and pointwise passes translate directly.

Browser primitives that the source calls but does not define (drawImage
compositing, Math.exp, PNG encode/decode) are taken as parameters of the
embedded operations; every theorem about code that uses them is quantified
over those parameters, and concrete instantiations are used only where the
stated property is independent of the parameter.
-/

/-- One RGBA pixel; channels are byte values 0..255 as stored in a canvas
ImageData buffer. -/
structure RGBA where
  r : Nat
  g : Nat
  b : Nat
  a : Nat
deriving DecidableEq, Repr

/-- A canvas pixel buffer: a width times height grid of RGBA pixels.  The
data field is total; only coordinates below the bounds are meaningful. -/
structure Image where
  width : Nat
  height : Nat
  data : Nat → Nat → RGBA

/-- Test whether the first character list starts the second one. -/
def leadsWith : List Char → List Char → Bool
  | [], _ => true
  | _ :: _, [] => false
  | a :: as, b :: bs => a == b && leadsWith as bs

/-- Test whether the first character list occurs contiguously inside the
second one. -/
def occursIn : List Char → List Char → Bool
  | n, [] => n.isEmpty
  | n, h :: hs => leadsWith n (h :: hs) || occursIn n hs

/-- JavaScript String.prototype.includes, i.e. substring containment. -/
def strContains (s sub : String) : Bool :=
  occursIn sub.data s.data

/-- JavaScript String.prototype.toLowerCase on ASCII labels. -/
def strToLower (s : String) : String :=
  ⟨s.data.map Char.toLower⟩

/-- Number of mask pixels whose red channel exceeds 128 (the whitePixels
counter of the mask-analysis loop in extractRegion). -/
def countWhite (m : Image) : Nat :=
  ((List.range m.height).map
    (fun y => ((List.range m.width).filter
      (fun x => decide (128 < (m.data x y).r))).length)).sum

/-- Number of mask pixels whose red channel is at most 128 (the blackPixels
counter of the mask-analysis loop in extractRegion). -/
def countBlack (m : Image) : Nat :=
  ((List.range m.height).map
    (fun y => ((List.range m.width).filter
      (fun x => decide ((m.data x y).r ≤ 128))).length)).sum

/-- The inversion heuristic of extractRegion (KonvaCanvas): the mask is
treated as inverted when the lowercased label contains "background" or
"bg", or when the white-pixel count exceeds three times the black-pixel
count. -/
def isBackgroundRegion (label : String) (m : Image) : Bool :=
  strContains (strToLower label) "background" ||
  strContains (strToLower label) "bg" ||
  decide (countBlack m * 3 < countWhite m)

/-- Nearest-neighbour remap from image coordinates to mask coordinates:
maskX = floor(x / imgW * maskW), modelled with exact natural division. -/
def maskRemapX (x imgW maskW : Nat) : Nat := x * maskW / imgW

/-- Nearest-neighbour remap for the y coordinate. -/
def maskRemapY (y imgH maskH : Nat) : Nat := y * maskH / imgH

/-- The remapped mask red-channel intensity read by both extraction passes. -/
def maskIntensity (src msk : Image) (x y : Nat) : Nat :=
  (msk.data (maskRemapX x src.width msk.width)
            (maskRemapY y src.height msk.height)).r

/-- First pass of extractRegion: the extracted layer.  Copies the source
and zeroes the alpha channel of every pixel that is not kept; whether a
pixel is kept follows the mask intensity threshold 128, inverted when the
inversion heuristic fired.  RGB channels are left untouched. -/
def extractRegionLayer (label : String) (src msk : Image) : Image :=
  let inv := isBackgroundRegion label msk
  { width := src.width
    height := src.height
    data := fun x y =>
      let p := src.data x y
      let isWhite := decide (128 < maskIntensity src msk x y)
      let shouldKeep := if inv then !isWhite else isWhite
      if shouldKeep then p else ⟨p.r, p.g, p.b, 0⟩ }

/-- Second pass of extractRegion: the updated base image.  Redraws the
source and zeroes the alpha channel wherever the remapped mask intensity
exceeds 200; this pass never consults the inversion heuristic. -/
def updatedBaseImage (src msk : Image) : Image :=
  { width := src.width
    height := src.height
    data := fun x y =>
      let p := src.data x y
      if 200 < maskIntensity src msk x y then ⟨p.r, p.g, p.b, 0⟩ else p }

/-- The full extractRegion operation: emits the extracted layer and the
updated base image. -/
def extractRegion (label : String) (src msk : Image) : Image × Image :=
  (extractRegionLayer label src msk, updatedBaseImage src msk)

/-- The 8x8 test mask of the spec scenario: 6 black cells (row 0, columns
0..5) and 58 white cells. -/
def msk8 : Image :=
  { width := 8
    height := 8
    data := fun x y =>
      if y = 0 ∧ x < 6 then ⟨0, 0, 0, 255⟩ else ⟨255, 255, 255, 255⟩ }

/-- A fully opaque 8x8 source image for the spec scenario. -/
def src8 : Image :=
  { width := 8, height := 8, data := fun _ _ => ⟨10, 20, 30, 255⟩ }

/-- C1: for every detected-region extraction the mask is treated as
inverted exactly when the lowercased label contains "background" or "bg"
or the white-pixel count (red channel above 128) exceeds three times the
black-pixel count; when inverted the extracted layer keeps exactly the
source pixels whose nearest-neighbour-remapped mask intensity is at most
128 (alpha zeroed elsewhere, RGB untouched), otherwise exactly those with
intensity above 128; and for the 8x8 mask with 58 white and 6 black cells
and label "background_wall", the extracted layer alpha is nonzero exactly
at the source pixels mapped to the 6 black cells. -/
theorem c1_detected_region_extraction :
    (∀ (label : String) (src msk : Image) (x y : Nat),
       x < src.width → y < src.height →
       (extractRegion label src msk).1.data x y =
         (if (if (strContains (strToLower label) "background" ||
                  strContains (strToLower label) "bg" ||
                  decide (countBlack msk * 3 < countWhite msk)) = true
              then maskIntensity src msk x y ≤ 128
              else 128 < maskIntensity src msk x y)
          then src.data x y
          else ⟨(src.data x y).r, (src.data x y).g, (src.data x y).b, 0⟩))
    ∧ (∀ x, x < 8 → ∀ y, y < 8 →
        (0 < ((extractRegion "background_wall" src8 msk8).1.data x y).a ↔ (y = 0 ∧ x < 6)))
    ∧ countWhite msk8 = 58 ∧ countBlack msk8 = 6 := by
  refine ⟨?_, by decide, by decide, by decide⟩
  intro label src msk x y hx hy
  have hdef : (strContains (strToLower label) "background" ||
      strContains (strToLower label) "bg" ||
      decide (countBlack msk * 3 < countWhite msk)) = isBackgroundRegion label msk := rfl
  rw [hdef]
  show (let p := src.data x y
        let isWhite := decide (128 < maskIntensity src msk x y)
        let shouldKeep := if isBackgroundRegion label msk then !isWhite else isWhite
        if shouldKeep then p else ⟨p.r, p.g, p.b, 0⟩) = _
  cases hinv : isBackgroundRegion label msk <;>
    by_cases hmi : 128 < maskIntensity src msk x y <;>
    simp [hmi] <;>
    first
      | rfl
      | (rw [if_neg (by omega)])
      | (rw [if_pos (by omega)])

/-- Witness for C1: concrete evaluation on the 8x8 scenario; pixel (6,0)
maps to a white cell and is dropped (alpha 0, RGB kept), pixel (2,0) maps
to a black cell and is kept. -/
theorem c1_witness :
    ((extractRegion "background_wall" src8 msk8).1.data 6 0 = ⟨10, 20, 30, 0⟩)
    ∧ (0 < ((extractRegion "background_wall" src8 msk8).1.data 2 0).a ↔ (0 = 0 ∧ 2 < 6)) := by
  constructor
  · have h := c1_detected_region_extraction.1 "background_wall" src8 msk8 6 0
      (by decide) (by decide)
    rw [h]; decide
  · exact c1_detected_region_extraction.2.1 2 (by decide) 0 (by decide)

/-- C2: the base-image update pass of extractRegion zeroes alpha exactly
at pixels whose remapped mask intensity exceeds 200, leaves every other
pixel unchanged, and is independent of the label (hence of the inversion
heuristic). -/
theorem c2_base_update_fixed_threshold :
    (∀ (label1 label2 : String) (src msk : Image),
       (extractRegion label1 src msk).2 = (extractRegion label2 src msk).2)
    ∧ (∀ (label : String) (src msk : Image) (x y : Nat),
        x < src.width → y < src.height →
        ((200 < maskIntensity src msk x y →
           (extractRegion label src msk).2.data x y =
             ⟨(src.data x y).r, (src.data x y).g, (src.data x y).b, 0⟩)
         ∧ (maskIntensity src msk x y ≤ 200 →
           (extractRegion label src msk).2.data x y = src.data x y))) := by
  refine ⟨fun _ _ _ _ => rfl, ?_⟩
  intro label src msk x y hx hy
  constructor
  · intro h
    show (let p := src.data x y
          if 200 < maskIntensity src msk x y then (⟨p.r, p.g, p.b, 0⟩ : RGBA) else p) = _
    rw [if_pos h]
  · intro h
    show (let p := src.data x y
          if 200 < maskIntensity src msk x y then (⟨p.r, p.g, p.b, 0⟩ : RGBA) else p) = _
    rw [if_neg (by omega)]

/-- Witness for C2: on the 8x8 scenario, pixel (7,0) maps to a white mask
cell (intensity 255 above 200) and is removed from the base; pixel (0,0)
maps to a black cell and stays fully intact. -/
theorem c2_witness :
    ((extractRegion "background_wall" src8 msk8).2.data 7 0 = ⟨10, 20, 30, 0⟩)
    ∧ ((extractRegion "background_wall" src8 msk8).2.data 0 0 = ⟨10, 20, 30, 255⟩) := by
  constructor
  · have h := (c2_base_update_fixed_threshold.2 "background_wall" src8 msk8 7 0
      (by decide) (by decide)).1 (by decide)
    rw [h]; rfl
  · have h := (c2_base_update_fixed_threshold.2 "background_wall" src8 msk8 0 0
      (by decide) (by decide)).2 (by decide)
    rw [h]; rfl

/-- Rasterization of a closed filled path on a fresh canvas: the canvas
starts as transparent black and the path interior is filled with opaque
white (fillStyle white), exactly the two pixel values the lasso mask
canvas of extractLassoSelection can hold.  The interior predicate stands
for the canvas fill rule on the scaled polygon. -/
def rasterMask (w h : Nat) (inside : Nat → Nat → Bool) : Image :=
  { width := w
    height := h
    data := fun x y => if inside x y then ⟨255, 255, 255, 255⟩ else ⟨0, 0, 0, 0⟩ }

/-- Extracted-layer pass of extractLassoSelection: pixels whose mask red
channel is 0 (outside the selection) become transparent, all others are
copied unchanged. -/
def lassoLayerImage (src msk : Image) : Image :=
  { width := src.width
    height := src.height
    data := fun x y =>
      let p := src.data x y
      if (msk.data x y).r = 0 then ⟨p.r, p.g, p.b, 0⟩ else p }

/-- Base-update pass of extractLassoSelection: pixels whose mask red
channel is positive (inside the selection) become transparent, all others
are copied unchanged. -/
def lassoBaseImage (src msk : Image) : Image :=
  { width := src.width
    height := src.height
    data := fun x y =>
      let p := src.data x y
      if 0 < (msk.data x y).r then ⟨p.r, p.g, p.b, 0⟩ else p }

/-- The 100x100 fully opaque red source of the end-to-end scenario. -/
def red100 : Image :=
  { width := 100, height := 100, data := fun _ _ => ⟨255, 0, 0, 255⟩ }

/-- Interior predicate of a lasso covering exactly the top-left 50x50
quadrant. -/
def quadInside (x y : Nat) : Bool :=
  decide (x < 50) && decide (y < 50)

/-- C3: for a fully opaque source and a lasso rasterized as a white-filled
polygon mask at native resolution, the extracted layer has alpha 255
exactly inside the polygon and 0 outside, and the updated base has alpha
0 exactly inside with all other pixels fully unchanged; instantiated on
the 100x100 red image with the top-left 50x50 quadrant lasso. -/
theorem c3_lasso_quadrant :
    (∀ (src : Image) (inside : Nat → Nat → Bool),
      (∀ x y, (src.data x y).a = 255) →
      ∀ x y, x < src.width → y < src.height →
        ((((lassoLayerImage src (rasterMask src.width src.height inside)).data x y).a = 255
            ↔ inside x y = true)
        ∧ (inside x y = false →
            ((lassoLayerImage src (rasterMask src.width src.height inside)).data x y).a = 0)
        ∧ (((lassoBaseImage src (rasterMask src.width src.height inside)).data x y).a = 0
            ↔ inside x y = true)
        ∧ (inside x y = false →
            (lassoBaseImage src (rasterMask src.width src.height inside)).data x y
              = src.data x y)))
    ∧ (∀ x y, x < 100 → y < 100 →
        ((((lassoLayerImage red100 (rasterMask 100 100 quadInside)).data x y).a = 255
            ↔ (x < 50 ∧ y < 50))
        ∧ (((lassoBaseImage red100 (rasterMask 100 100 quadInside)).data x y).a = 0
            ↔ (x < 50 ∧ y < 50))
        ∧ (¬(x < 50 ∧ y < 50) →
            (lassoBaseImage red100 (rasterMask 100 100 quadInside)).data x y
              = ⟨255, 0, 0, 255⟩))) := by
  have main : ∀ (src : Image) (inside : Nat → Nat → Bool),
      (∀ x y, (src.data x y).a = 255) →
      ∀ x y, x < src.width → y < src.height →
        ((((lassoLayerImage src (rasterMask src.width src.height inside)).data x y).a = 255
            ↔ inside x y = true)
        ∧ (inside x y = false →
            ((lassoLayerImage src (rasterMask src.width src.height inside)).data x y).a = 0)
        ∧ (((lassoBaseImage src (rasterMask src.width src.height inside)).data x y).a = 0
            ↔ inside x y = true)
        ∧ (inside x y = false →
            (lassoBaseImage src (rasterMask src.width src.height inside)).data x y
              = src.data x y)) := by
    intro src inside ha x y hx hy
    cases hin : inside x y <;>
      simp [lassoLayerImage, lassoBaseImage, rasterMask, hin, ha x y]
  refine ⟨main, ?_⟩
  intro x y hx hy
  have h := main red100 quadInside (fun _ _ => rfl) x y hx hy
  have hq : quadInside x y = true ↔ (x < 50 ∧ y < 50) := by
    simp [quadInside]
  have hq2 : quadInside x y = false ↔ ¬(x < 50 ∧ y < 50) := by
    rcases Bool.eq_false_or_eq_true (quadInside x y) with h1 | h1 <;>
      simp [h1] at hq ⊢ <;> tauto
  refine ⟨h.1.trans hq, (h.2.2.1).trans hq, ?_⟩
  intro hn
  exact h.2.2.2 (hq2.mpr hn)

/-- Witness for C3: concrete pixels of the quadrant scenario; (10,10) is
inside the lasso (layer alpha 255, base alpha 0) and (60,10) is outside
(base pixel still fully opaque red). -/
theorem c3_witness :
    (((lassoLayerImage red100 (rasterMask 100 100 quadInside)).data 10 10).a = 255)
    ∧ (((lassoBaseImage red100 (rasterMask 100 100 quadInside)).data 10 10).a = 0)
    ∧ ((lassoBaseImage red100 (rasterMask 100 100 quadInside)).data 60 10 = ⟨255, 0, 0, 255⟩) := by
  refine ⟨?_, ?_, ?_⟩
  · exact ((c3_lasso_quadrant.2 10 10 (by decide) (by decide)).1).mpr (by decide)
  · exact ((c3_lasso_quadrant.2 10 10 (by decide) (by decide)).2.1).mpr (by decide)
  · exact (c3_lasso_quadrant.2 60 10 (by decide) (by decide)).2.2 (by decide)

/-- Maximum red-channel value over the 3x3 neighbourhood of (x,y),
skipping out-of-bounds neighbours, starting from 0 — the maxValue loop of
dilateMask in api.ts. -/
def neighborMaxR (img : Image) (x y : Nat) : Nat :=
  ((List.range 3).map (fun dy =>
    ((List.range 3).map (fun dx =>
      let nx : Int := (x : Int) + dx - 1
      let ny : Int := (y : Int) + dy - 1
      if 0 ≤ nx ∧ nx < (img.width : Int) ∧ 0 ≤ ny ∧ ny < (img.height : Int) then
        (img.data nx.toNat ny.toNat).r
      else 0)).foldl max 0)).foldl max 0

/-- One iteration of dilateMask: every output pixel holds the 3x3 red
maximum in all three colour channels with alpha forced to 255. -/
def dilateStep (img : Image) : Image :=
  { width := img.width
    height := img.height
    data := fun x y =>
      let m := neighborMaxR img x y
      ⟨m, m, m, 255⟩ }

/-- dilateMask of api.ts: iterations-fold of dilateStep; zero iterations
return a copy of the input. -/
def dilateMask (img : Image) : Nat → Image
  | 0 => img
  | n + 1 => dilateStep (dilateMask img n)

lemma imageEq : ∀ (a b : Image), a.width = b.width → a.height = b.height →
    (∀ x y, a.data x y = b.data x y) → a = b := by
  rintro ⟨w1, h1, d1⟩ ⟨w2, h2, d2⟩ hw hh hd
  simp only at hw hh
  subst hw; subst hh
  have hfun : d1 = d2 := funext fun x => funext fun y => hd x y
  rw [hfun]

lemma dilateStep_width (img : Image) : (dilateStep img).width = img.width := rfl

lemma dilateStep_height (img : Image) : (dilateStep img).height = img.height := rfl

lemma dilateStep_data (img : Image) (x y : Nat) :
    (dilateStep img).data x y =
      ⟨neighborMaxR img x y, neighborMaxR img x y, neighborMaxR img x y, 255⟩ := rfl

lemma neighborMaxR_congr (img1 img2 : Image) (hw : img2.width = img1.width)
    (hh : img2.height = img1.height)
    (hr : ∀ x y, (img2.data x y).r = (img1.data x y).r) (x y : Nat) :
    neighborMaxR img2 x y = neighborMaxR img1 x y := by
  simp [neighborMaxR, hw, hh, hr]

lemma dilateStep_congr (img1 img2 : Image) (hw : img2.width = img1.width)
    (hh : img2.height = img1.height)
    (hr : ∀ x y, (img2.data x y).r = (img1.data x y).r) :
    dilateStep img2 = dilateStep img1 := by
  refine imageEq _ _ ?_ ?_ ?_
  · rw [dilateStep_width, dilateStep_width]; exact hw
  · rw [dilateStep_height, dilateStep_height]; exact hh
  · intro x y
    rw [dilateStep_data, dilateStep_data, neighborMaxR_congr img1 img2 hw hh hr]

lemma neighborMaxR_zero (img : Image) (hr : ∀ x y, (img.data x y).r = 0)
    (x y : Nat) : neighborMaxR img x y = 0 := by
  simp [neighborMaxR, hr, ite_self, List.range_succ]

lemma dilate_zero_aux : ∀ (n : Nat) (img : Image), (∀ x y, (img.data x y).r = 0) →
    ∀ x y, (dilateMask img (n + 1)).data x y = ⟨0, 0, 0, 255⟩ := by
  intro n
  induction n with
  | zero =>
    intro img hr x y
    rw [show dilateMask img 1 = dilateStep img from rfl, dilateStep_data,
      neighborMaxR_zero img hr]
  | succ m ih =>
    intro img hr x y
    have hz : ∀ a b, ((dilateMask img (m + 1)).data a b).r = 0 := by
      intro a b
      rw [ih img hr a b]
    rw [show dilateMask img (m + 2) = dilateStep (dilateMask img (m + 1)) from rfl,
      dilateStep_data, neighborMaxR_zero _ hz]

/-- C10: for every input and every iterations count of at least 1, each
pixel of dilateMask holds the 3x3 red-channel maximum of the previous
iteration in R, G and B with alpha 255; the result depends only on the
red channel of the input (green, blue and alpha never influence it), so
a mask carried only in the alpha channel dilates to an all-black opaque
image. -/
theorem c10_dilate_red_channel_only :
    (∀ (img : Image) (n : Nat), 1 ≤ n →
       ∀ x y, x < img.width → y < img.height →
         (dilateMask img n).data x y =
           ⟨neighborMaxR (dilateMask img (n - 1)) x y,
            neighborMaxR (dilateMask img (n - 1)) x y,
            neighborMaxR (dilateMask img (n - 1)) x y, 255⟩)
    ∧ (∀ (img1 img2 : Image), img2.width = img1.width → img2.height = img1.height →
        (∀ x y, (img2.data x y).r = (img1.data x y).r) →
        ∀ n, 1 ≤ n → dilateMask img2 n = dilateMask img1 n)
    ∧ (∀ (img : Image), (∀ x y, (img.data x y).r = 0) →
        ∀ n, 1 ≤ n → ∀ x y, (dilateMask img n).data x y = ⟨0, 0, 0, 255⟩) := by
  refine ⟨?_, ?_, ?_⟩
  · intro img n h1 x y hx hy
    obtain ⟨m, rfl⟩ : ∃ m, n = m + 1 := ⟨n - 1, by omega⟩
    rw [show dilateMask img (m + 1) = dilateStep (dilateMask img m) from rfl,
      dilateStep_data]
    simp
  · intro img1 img2 hw hh hr n h1
    obtain ⟨m, rfl⟩ : ∃ m, n = m + 1 := ⟨n - 1, by omega⟩
    clear h1
    induction m with
    | zero => exact dilateStep_congr img1 img2 hw hh hr
    | succ k ih =>
      rw [show dilateMask img2 (k + 2) = dilateStep (dilateMask img2 (k + 1)) from rfl,
        show dilateMask img1 (k + 2) = dilateStep (dilateMask img1 (k + 1)) from rfl, ih]
  · intro img hr n h1 x y
    obtain ⟨m, rfl⟩ : ∃ m, n = m + 1 := ⟨n - 1, by omega⟩
    exact dilate_zero_aux m img hr x y

/-- Witness for C10: on a 2x2 image whose red channel is 255 only at
(1,0), one dilation makes pixel (0,0) the full white opaque pixel; and a
1x1 image carrying 200 only in its alpha channel dilates to black opaque,
discarding the alpha-encoded mask. -/
theorem c10_witness :
    ((dilateMask ⟨2, 2, fun x y => if x = 1 ∧ y = 0 then ⟨255, 0, 0, 0⟩ else ⟨0, 9, 9, 9⟩⟩ 1).data 0 0
      = ⟨255, 255, 255, 255⟩)
    ∧ ((dilateMask ⟨1, 1, fun _ _ => ⟨0, 0, 0, 200⟩⟩ 1).data 0 0 = ⟨0, 0, 0, 255⟩) := by
  constructor
  · have h := c10_dilate_red_channel_only.1
      ⟨2, 2, fun x y => if x = 1 ∧ y = 0 then ⟨255, 0, 0, 0⟩ else ⟨0, 9, 9, 9⟩⟩ 1
      (by decide) 0 0 (by decide) (by decide)
    rw [h]
    decide
  · exact c10_dilate_red_channel_only.2.2 ⟨1, 1, fun _ _ => ⟨0, 0, 0, 200⟩⟩
      (fun _ _ => rfl) 1 (by decide) 0 0

/-- JavaScript double values arising in the blur computation: an exact
rational, or the NaN marker none.  JS x/0 is an infinity for x not 0 and
NaN for 0/0; in the kernel computation the numerator is 0 whenever the
denominator is 0 (radius 0 makes sigma 0 and the single loop index x 0),
so mapping every zero-denominator division to the NaN marker is faithful
on every input reachable here. -/
def jsAdd : Option ℚ → Option ℚ → Option ℚ
  | some a, some b => some (a + b)
  | _, _ => none

/-- JS multiplication with NaN propagation. -/
def jsMul : Option ℚ → Option ℚ → Option ℚ
  | some a, some b => some (a * b)
  | _, _ => none

/-- JS negation with NaN propagation. -/
def jsNeg : Option ℚ → Option ℚ
  | some a => some (-a)
  | none => none

/-- JS division with NaN propagation; see jsAdd for the zero-denominator
convention. -/
def jsDiv : Option ℚ → Option ℚ → Option ℚ
  | some a, some b => if b = 0 then none else some (a / b)
  | _, _ => none

/-- Math.exp is a browser primitive; it is passed in as expFn, which
stands for its exact behaviour on finite arguments, while exp(NaN) = NaN
is fixed.  Every theorem below quantifies over expFn. -/
def jsExpWith (expFn : ℚ → ℚ) : Option ℚ → Option ℚ
  | some q => some (expFn q)
  | none => none

/-- Round half to even on rationals, the rounding used by
Uint8ClampedArray stores. -/
def roundHalfEven (q : ℚ) : ℤ :=
  let f := ⌊q⌋
  let r := q - f
  if r < 1/2 then f
  else if 1/2 < r then f + 1
  else if f % 2 = 0 then f else f + 1

/-- Uint8ClampedArray store: NaN becomes 0, values clamp to [0,255],
others round half to even. -/
def clampByte : Option ℚ → Nat
  | none => 0
  | some q => if q ≤ 0 then 0 else if 255 ≤ q then 255 else (roundHalfEven q).toNat

/-- The normalized Gaussian kernel of applyGaussianBlur: sigma is
radius/3, raw entries are exp(-(x*x) / (2*sigma*sigma)) for x from
-radius to radius, then each entry is divided by the kernel sum. -/
def gaussKernel (expFn : ℚ → ℚ) (radius : Nat) : List (Option ℚ) :=
  let sigma : ℚ := (radius : ℚ) / 3
  let raw := (List.range (2 * radius + 1)).map (fun (i : Nat) =>
    let x : ℚ := (i : ℚ) - (radius : ℚ)
    jsExpWith expFn (jsDiv (jsNeg (jsMul (some x) (some x)))
      (jsMul (some 2) (jsMul (some sigma) (some sigma)))))
  let kernelSum := raw.foldl jsAdd (some 0)
  raw.map (fun v => jsDiv v kernelSum)

/-- One weighted 1-D convolution sum of applyGaussianBlur: the running
accumulator starts at 0 and adds channel value times kernel weight, with
the sample position clamped to [0, len-1]; a kernel lookup outside the
list is undefined in JS and yields NaN in the product. -/
def convWeighted (kernel : List (Option ℚ)) (radius len : Nat)
    (get : Nat → Nat) (pos : Nat) : Option ℚ :=
  (List.range (2 * radius + 1)).foldl (fun (acc : Option ℚ) (i : Nat) =>
    let k : Int := (i : Int) - (radius : Int)
    let p : Int := min (max ((pos : Int) + k) 0) ((len : Int) - 1)
    jsAdd acc (jsMul (some ((get p.toNat : ℚ))) (kernel.getD i none))) (some 0)

/-- applyGaussianBlur of api.ts: separable two-pass convolution, the
horizontal pass into a temporary clamped-byte buffer, then the vertical
pass into the output; all four channels are convolved. -/
def applyGaussianBlur (expFn : ℚ → ℚ) (img : Image) (radius : Nat) : Image :=
  let kernel := gaussKernel expFn radius
  let temp : Nat → Nat → RGBA := fun x y =>
    ⟨clampByte (convWeighted kernel radius img.width (fun px => (img.data px y).r) x),
     clampByte (convWeighted kernel radius img.width (fun px => (img.data px y).g) x),
     clampByte (convWeighted kernel radius img.width (fun px => (img.data px y).b) x),
     clampByte (convWeighted kernel radius img.width (fun px => (img.data px y).a) x)⟩
  { width := img.width
    height := img.height
    data := fun x y =>
      ⟨clampByte (convWeighted kernel radius img.height (fun py => (temp x py).r) y),
       clampByte (convWeighted kernel radius img.height (fun py => (temp x py).g) y),
       clampByte (convWeighted kernel radius img.height (fun py => (temp x py).b) y),
       clampByte (convWeighted kernel radius img.height (fun py => (temp x py).a) y)⟩ }

/-- Stand-in value for the external Math.exp; the radius-0 behaviour
established below is independent of it (c7_zero_parameter_geometry is
quantified over every expFn). -/
def mathExpModel : ℚ → ℚ := fun _ => 1

/-- A 1x1 all-white opaque mask. -/
def wmask1 : Image := ⟨1, 1, fun _ _ => ⟨255, 255, 255, 255⟩⟩

/-- Counterexample for C7: the claim that gaussianBlur(mask, 0) equals
the mask fails: at radius 0 the kernel entry is exp(-(0*0)/(2*0*0)) =
exp(NaN) = NaN, the normalized kernel is [NaN], every convolution sum is
NaN and every Uint8ClampedArray store of NaN is 0, so the 1x1 white
opaque mask comes back as the all-zero transparent image instead of
itself. -/
theorem c7_gaussian_zero_not_identity :
    applyGaussianBlur mathExpModel wmask1 0 ≠ wmask1 := by
  intro h
  have hl : ((applyGaussianBlur mathExpModel wmask1 0).data 0 0).a = 0 := by
    simp [applyGaussianBlur, gaussKernel, convWeighted, jsMul, jsNeg, jsDiv, jsExpWith,
      jsAdd, clampByte, List.range_succ]
  rw [h] at hl
  exact absurd hl (by decide)

/-- C7 (amended): dilate(mask, 0) equals the mask (the iteration loop is
skipped and a pixel-for-pixel copy is returned), but gaussianBlur(mask, 0)
is not the identity: the radius-0 Gaussian kernel is NaN (sigma = 0 gives
a 0/0 exponent), NaN propagates through both convolution passes, and the
clamped byte stores turn every channel of every pixel into 0, for every
possible behaviour of the external Math.exp. -/
theorem c7_zero_parameter_geometry :
    ∀ (expFn : ℚ → ℚ) (m : Image),
      dilateMask m 0 = m ∧
      ∀ x y, (applyGaussianBlur expFn m 0).data x y = ⟨0, 0, 0, 0⟩ := by
  intro expFn m
  refine ⟨rfl, ?_⟩
  intro x y
  simp [applyGaussianBlur, gaussKernel, convWeighted, jsMul, jsNeg, jsDiv, jsExpWith,
    jsAdd, clampByte, List.range_succ]

/-- A layer record of SegmentArt (part of the document state); the
thumbnail duplicates the url at creation time. -/
structure DocLayer where
  id : String
  name : String
  url : String
  thumbnail : String
  visible : Bool
  ltype : String
  x : Nat
  y : Nat
  width : Nat
  height : Nat
deriving DecidableEq, Repr

/-- One history snapshot: the base image data URL (null allowed) and a
deep copy of the layer list. -/
structure HistoryState where
  image : Option String
  layers : List DocLayer
deriving DecidableEq, Repr

/-- The SegmentArt document state: uploaded base image, layer stack,
history snapshot stack and its current index (-1 before initialization). -/
structure DocState where
  image : Option String
  layers : List DocLayer
  history : List HistoryState
  historyIndex : Int
deriving DecidableEq, Repr

/-- saveToHistory: snapshot the current image and a deep copy of the
current layers, discard any redo tail beyond the current index, push the
snapshot and point the index at it. -/
def saveToHistory (s : DocState) : DocState :=
  let newHistory := s.history.take (s.historyIndex + 1).toNat ++ [⟨s.image, s.layers⟩]
  { s with history := newHistory, historyIndex := (newHistory.length : Int) - 1 }

/-- handleUndo: when the index is positive, restore the previous history
entry and move the index back; otherwise do nothing. -/
def handleUndo (s : DocState) : DocState :=
  if 0 < s.historyIndex then
    let i := s.historyIndex - 1
    let st := s.history.getD i.toNat ⟨none, []⟩
    { s with image := st.image, layers := st.layers, historyIndex := i }
  else s

/-- handleRedo: when the index is below the last entry, restore the next
history entry and advance the index; otherwise do nothing. -/
def handleRedo (s : DocState) : DocState :=
  if s.historyIndex < (s.history.length : Int) - 1 then
    let i := s.historyIndex + 1
    let st := s.history.getD i.toNat ⟨none, []⟩
    { s with image := st.image, layers := st.layers, historyIndex := i }
  else s

/-- JavaScript charAt(0).toUpperCase() + slice(1). -/
def capFirst (s : String) : String :=
  match s.data with
  | [] => ""
  | c :: cs => ⟨c.toUpper :: cs⟩

/-- handleSegment of SegmentArt: save the pre-change state to history,
then append the freshly extracted layer (named from its type and the
pre-change layer count) to the stack.  The fresh id produced from
Date.now() is passed in. -/
def handleSegmentDoc (s : DocState) (dataUrl ltype : String)
    (px py pw ph : Nat) (newId : String) : DocState :=
  let s1 := saveToHistory s
  let newLayer : DocLayer :=
    ⟨newId, capFirst ltype ++ " " ++ toString (s.layers.length + 1),
     dataUrl, dataUrl, true, ltype, px, py, pw, ph⟩
  { s1 with layers := s1.layers ++ [newLayer] }

/-- One full extraction as seen by the document state: extractRegion
first fires onExtract (handleSegment: history snapshot plus new layer),
then onImageUpdate replaces the base image with the hole-punched one. -/
def extractionStep (s : DocState) (layerUrl ltype : String)
    (px py pw ph : Nat) (newId newBase : String) : DocState :=
  let s1 := handleSegmentDoc s layerUrl ltype px py pw ph newId
  { s1 with image := some newBase }

/-- The document state right after the first upload: the initialization
effect seeds history with the single snapshot of the current state. -/
def uploadedState (img0 : String) (layers0 : List DocLayer) : DocState :=
  ⟨some img0, layers0, [⟨some img0, layers0⟩], 0⟩

/-- Concrete pre-extraction state for the history round-trip scenario. -/
def s0c : DocState := uploadedState "base0" []

/-- Concrete post-extraction state S1 of the scenario. -/
def s1c : DocState := extractionStep s0c "layerPng" "mask" 0 0 8 8 "layer-1" "base1"

/-- Counterexample for C4: on the concrete round trip (upload "base0",
extract a layer producing S1 with base "base1" and one layer), undo does
restore S0 exactly, but the subsequent redo yields the snapshot pushed at
the start of the extraction — which is S0 again, not S1: its image is
"base0" and its layer list is empty, while S1 has image "base1" and one
layer. -/
theorem c4_redo_counterexample :
    ((handleUndo s1c).image = s0c.image ∧ (handleUndo s1c).layers = s0c.layers)
    ∧ handleRedo (handleUndo s1c) ≠ s1c
    ∧ (handleRedo (handleUndo s1c)).image = some "base0"
    ∧ s1c.image = some "base1"
    ∧ (handleRedo (handleUndo s1c)).layers = []
    ∧ s1c.layers.length = 1 := by decide

/-- C4 (amended): starting from the initialized post-upload state S0, one
extraction yields S1; undo restores the image and layer list of S0
exactly, and the subsequent redo restores the snapshot that the
extraction pushed, which again carries the image and layer list of S0 —
not S1, because only pre-operation states are ever stored in history. -/
theorem c4_history_roundtrip_amended :
    ∀ (img0 : String) (layers0 : List DocLayer) (url tp : String)
      (px py pw ph : Nat) (nid nb : String),
      (handleUndo (extractionStep (uploadedState img0 layers0) url tp px py pw ph nid nb)).image
        = some img0
      ∧ (handleUndo (extractionStep (uploadedState img0 layers0) url tp px py pw ph nid nb)).layers
        = layers0
      ∧ (handleRedo (handleUndo
          (extractionStep (uploadedState img0 layers0) url tp px py pw ph nid nb))).image
        = some img0
      ∧ (handleRedo (handleUndo
          (extractionStep (uploadedState img0 layers0) url tp px py pw ph nid nb))).layers
        = layers0 := by
  intro img0 layers0 url tp px py pw ph nid nb
  exact ⟨rfl, rfl, rfl, rfl⟩

/-- Model of canvas drawImage at (0,0) for source images whose pixels are
fully opaque or fully transparent (the only content used in concrete
instantiations below); the merge theorems are quantified over the real
compositing function, so nothing depends on this particular choice. -/
def drawOpaque (c i : Image) : Image :=
  { width := c.width
    height := c.height
    data := fun x y => if (i.data x y).a = 0 then c.data x y else i.data x y }

/-- The merged layer record built by mergeLayers: named from the
pre-merge layer count, typed "merged", full-canvas position, sized to the
merge canvas (the dimensions of the bottom-most selected layer). -/
def mkMergedLayer (newId url : String) (layersLen w h : Nat) : DocLayer :=
  ⟨newId, "Merged Layer " ++ toString (layersLen + 1), url, url, true, "merged", 0, 0, w, h⟩

/-- mergeLayers of SegmentArt.  decode stands for the browser image
decode of a layer url, dr for canvas drawImage compositing and enc for
canvas.toDataURL.  Fewer than two selected ids is the reported
precondition failure; otherwise the selected layers are drawn in stack
order onto a fresh canvas sized to the first (bottom-most) selected
layer, the selected layers are dropped and the merged layer is appended
after the remaining stack. -/
def mergeLayersRun (decode : String → Image) (dr : Image → Image → Image)
    (enc : Image → String) (sel : Finset String) (layers : List DocLayer)
    (newId : String) : Except String (List DocLayer) :=
  if sel.card < 2 then .error "Please select at least 2 layers to merge"
  else
    match layers.filter (fun l => decide (l.id ∈ sel)) with
    | [] => .error "Failed to create canvas context"
    | first :: rest =>
      let firstImg := decode first.url
      let canvas0 : Image := ⟨firstImg.width, firstImg.height, fun _ _ => ⟨0, 0, 0, 0⟩⟩
      let merged := (first :: rest).foldl (fun c l => dr c (decode l.url)) canvas0
      let url := enc merged
      .ok ((layers.filter (fun l => decide (l.id ∉ sel))) ++
        [mkMergedLayer newId url layers.length firstImg.width firstImg.height])

/-- The layer stack after a merge attempt: the error path leaves the
stack untouched (setLayers is never called), the success path installs
the new stack. -/
def applyMerge (decode : String → Image) (dr : Image → Image → Image)
    (enc : Image → String) (sel : Finset String) (layers : List DocLayer)
    (newId : String) : List DocLayer :=
  match mergeLayersRun decode dr enc sel layers newId with
  | .error _ => layers
  | .ok ls => ls

/-- Decode stand-in for the merge counterexample: every url decodes to a
1x1 transparent image.  The refuted property only concerns the order of
the resulting layer list, which is independent of decode, dr and enc. -/
def decodeConst : String → Image := fun _ => ⟨1, 1, fun _ _ => ⟨0, 0, 0, 0⟩⟩

/-- toDataURL stand-in for the merge counterexample. -/
def encConst : Image → String := fun _ => "mergedData"

/-- A four-layer stack for the merge counterexample. -/
def layers4 : List DocLayer :=
  [⟨"a", "A", "ua", "ua", true, "mask", 0, 0, 1, 1⟩,
   ⟨"b", "B", "ub", "ub", true, "mask", 0, 0, 1, 1⟩,
   ⟨"c", "C", "uc", "uc", true, "mask", 0, 0, 1, 1⟩,
   ⟨"d", "D", "ud", "ud", true, "mask", 0, 0, 1, 1⟩]

/-- Counterexample for C6: merging layers "a" and "b" out of the stack
[a, b, c, d] must, per the claim, place the flattened layer at the
position of the topmost merged layer "b" (stack index 1, below "c" and
"d"); the code instead appends it at the very top: the resulting id order
is [c, d, layer-m], with the merged layer at index 2, not 1.  The order
of the resulting stack does not depend on the decode, drawImage or
toDataURL stand-ins. -/
theorem c6_merge_position_counterexample :
    ((applyMerge decodeConst drawOpaque encConst {"a", "b"} layers4 "layer-m").map
        (fun l => l.id) = ["c", "d", "layer-m"])
    ∧ (((applyMerge decodeConst drawOpaque encConst {"a", "b"} layers4 "layer-m").map
        (fun l => l.id)).indexOf "layer-m" = 2)
    ∧ (2 : Nat) ≠ 1 := by decide

/-- C6 (amended): merging with fewer than 2 selected ids is a reported
precondition failure leaving the stack unchanged; with 2 or more ids the
selected layers are drawn in stack order onto a fresh canvas sized to the
bottom-most selected layer, the selected layers are removed, and the
single flattened layer is appended at the top (end) of the stack — not at
the position of the topmost merged layer. -/
theorem c6_merge_amended :
    ∀ (decode : String → Image) (dr : Image → Image → Image) (enc : Image → String)
      (sel : Finset String) (layers : List DocLayer) (newId : String),
      (sel.card < 2 →
        applyMerge decode dr enc sel layers newId = layers
        ∧ mergeLayersRun decode dr enc sel layers newId =
            .error "Please select at least 2 layers to merge")
      ∧ (∀ first rest, 2 ≤ sel.card →
          layers.filter (fun l => decide (l.id ∈ sel)) = first :: rest →
          mergeLayersRun decode dr enc sel layers newId =
            .ok ((layers.filter (fun l => decide (l.id ∉ sel))) ++
              [mkMergedLayer newId
                (enc ((first :: rest).foldl (fun c l => dr c (decode l.url))
                  ⟨(decode first.url).width, (decode first.url).height, fun _ _ => ⟨0, 0, 0, 0⟩⟩))
                layers.length (decode first.url).width (decode first.url).height])) := by
  intro decode dr enc sel layers newId
  constructor
  · intro h
    have he : mergeLayersRun decode dr enc sel layers newId =
        .error "Please select at least 2 layers to merge" := by
      unfold mergeLayersRun
      rw [if_pos h]
    refine ⟨?_, he⟩
    unfold applyMerge
    rw [he]
  · intro first rest h2 hf
    unfold mergeLayersRun
    rw [if_neg (by omega), hf]

/-- Witness for C6 (amended): a one-id merge on the concrete stack is a
no-op, and a two-id merge on the concrete stack yields a three-layer
stack. -/
theorem c6_witness :
    (applyMerge decodeConst drawOpaque encConst {"a"} layers4 "m1" = layers4)
    ∧ ((applyMerge decodeConst drawOpaque encConst {"a", "b"} layers4 "layer-m").length = 3) := by
  constructor
  · exact ((c6_merge_amended decodeConst drawOpaque encConst {"a"} layers4 "m1").1
      (by decide)).1
  · have h := (c6_merge_amended decodeConst drawOpaque encConst {"a", "b"} layers4 "layer-m").2
      ⟨"a", "A", "ua", "ua", true, "mask", 0, 0, 1, 1⟩
      [⟨"b", "B", "ub", "ub", true, "mask", 0, 0, 1, 1⟩] (by decide) (by decide)
    unfold applyMerge
    rw [h]
    decide

/-- handleContentAwareFill of SegmentArt.  useLocal selects the local
average-colour strategy, otherwise the DALL-E path runs; ht tells whether
the base image has any transparent pixel (the AI path returns early
without changes when it has none).  localRes and aiRes are the outcomes
of the respective fill calls (data URL on success); every failure path
falls into the catch block, which only shows a toast and changes no
document state.  On success the handler takes a history snapshot and then
replaces the base image; the layer stack is never written. -/
def handleContentAwareFill (useLocal ht : Bool)
    (localRes aiRes : Except String String) (s : DocState) : DocState :=
  if useLocal then
    match localRes with
    | .ok url => let s1 := saveToHistory s; { s1 with image := some url }
    | .error _ => s
  else
    if !ht then s
    else
      match aiRes with
      | .ok url => let s1 := saveToHistory s; { s1 with image := some url }
      | .error _ => s

/-- C8: for every invocation of either hole-fill strategy, successful or
failed, the extracted-layer stack is unchanged; a failed AI fill (and a
failed local fill) changes nothing at all — base image, layers, and
history included; a successful fill only replaces the base image (after
pushing a history snapshot). -/
theorem c8_fill_only_replaces_base :
    ∀ (useLocal ht : Bool) (localRes aiRes : Except String String) (s : DocState),
      ((handleContentAwareFill useLocal ht localRes aiRes s).layers = s.layers)
      ∧ (∀ e, useLocal = false → aiRes = .error e →
          handleContentAwareFill useLocal ht localRes aiRes s = s)
      ∧ (∀ e, useLocal = true → localRes = .error e →
          handleContentAwareFill useLocal ht localRes aiRes s = s)
      ∧ (∀ url,
          ((useLocal = true ∧ localRes = .ok url)
            ∨ (useLocal = false ∧ ht = true ∧ aiRes = .ok url)) →
          (handleContentAwareFill useLocal ht localRes aiRes s).image = some url) := by
  intro useLocal ht localRes aiRes s
  refine ⟨?_, ?_, ?_, ?_⟩
  · cases useLocal <;> cases ht <;> cases localRes <;> cases aiRes <;>
      simp [handleContentAwareFill, saveToHistory]
  · intro e hu ha
    subst hu; subst ha
    cases ht <;> simp [handleContentAwareFill]
  · intro e hu hl
    subst hu; subst hl
    simp [handleContentAwareFill]
  · intro url hcase
    rcases hcase with ⟨hu, hl⟩ | ⟨hu, hht, ha⟩
    · subst hu; subst hl
      simp [handleContentAwareFill]
    · subst hu; subst hht; subst ha
      simp [handleContentAwareFill]

/-- Witness for C8: concrete runs on the concrete post-extraction state;
a failed AI fill leaves the state untouched, and a successful local fill
keeps the layer stack while replacing the base image. -/
theorem c8_witness :
    (handleContentAwareFill false true (.ok "u") (.error "quota") s1c = s1c)
    ∧ ((handleContentAwareFill true true (.ok "filled") (.error "e") s1c).layers
        = s1c.layers)
    ∧ ((handleContentAwareFill true true (.ok "filled") (.error "e") s1c).image
        = some "filled") := by
  refine ⟨?_, ?_, ?_⟩
  · exact (c8_fill_only_replaces_base false true (.ok "u") (.error "quota") s1c).2.1
      "quota" rfl rfl
  · exact (c8_fill_only_replaces_base true true (.ok "filled") (.error "e") s1c).1
  · exact (c8_fill_only_replaces_base true true (.ok "filled") (.error "e") s1c).2.2.2
      "filled" (Or.inl ⟨rfl, rfl⟩)

/-- Per-draw-step brush mask snapshot of handleDrawMove: a fresh canvas
whose width and height are the stage (display) dimensions, filled black,
with the stage-space Konva brush-layer canvas drawn on top at (0,0); no
conversion to native coordinates takes place on this path. -/
def brushMaskSnapshot (stageW stageH : Nat) (dr : Image → Image → Image)
    (brushCanvas : Image) : Image :=
  let base : Image := ⟨stageW, stageH, fun _ _ => ⟨0, 0, 0, 255⟩⟩
  let drawn := dr base brushCanvas
  ⟨stageW, stageH, drawn.data⟩

/-- Conversion of one display-space lasso point coordinate to native
space in extractLassoSelection: subtract the image display offset, then
multiply by the scale factor nativeSize / displaySize. -/
def lassoNativeCoord (p offset disp native : ℚ) : ℚ :=
  (p - offset) * (native / disp)

/-- The lasso mask canvas of extractLassoSelection: allocated at the
native (original) image dimensions and filled white inside the scaled
polygon path. -/
def lassoMaskCanvas (origW origH : Nat) (inside : Nat → Nat → Bool) : Image :=
  rasterMask origW origH inside

/-- Counterexample for C5: with a native 1000x750 image shown on an
800x600 stage, the per-draw-step brush-stroke mask snapshot measures
800x600 — the stage size, not the native resolution — so not every
pointer-drag mask is produced at native resolution. -/
theorem c5_brush_mask_not_native :
    ((brushMaskSnapshot 800 600 drawOpaque wmask1).width = 800
      ∧ (brushMaskSnapshot 800 600 drawOpaque wmask1).height = 600)
    ∧ ((800 : Nat) ≠ 1000 ∧ (600 : Nat) ≠ 750) := by
  exact ⟨⟨rfl, rfl⟩, by decide, by decide⟩

/-- C5 (amended): the lasso path does rasterize at the native resolution,
converting display points by (point - displayOffset) * (native/display)
— the display-width point maps exactly to the native width — but the
brush-stroke mask snapshot taken after each draw step is always at the
stage (display) dimensions, whatever drawImage does. -/
theorem c5_mask_resolution_amended :
    ∀ (stageW stageH : Nat) (dr : Image → Image → Image) (bc : Image)
      (origW origH : Nat) (inside : Nat → Nat → Bool) (p offset disp native : ℚ),
      ((brushMaskSnapshot stageW stageH dr bc).width = stageW
        ∧ (brushMaskSnapshot stageW stageH dr bc).height = stageH)
      ∧ ((lassoMaskCanvas origW origH inside).width = origW
        ∧ (lassoMaskCanvas origW origH inside).height = origH)
      ∧ (disp ≠ 0 → lassoNativeCoord (offset + disp) offset disp native = native)
      ∧ lassoNativeCoord p offset disp native = (p - offset) * (native / disp) := by
  intro stageW stageH dr bc origW origH inside p offset disp native
  refine ⟨⟨rfl, rfl⟩, ⟨rfl, rfl⟩, ?_, rfl⟩
  intro hd
  unfold lassoNativeCoord
  field_simp

/-- Witness for C5 (amended): the display-space point at offset 100 plus
the full display width 800 lands exactly on the native width 1000. -/
theorem c5_witness :
    lassoNativeCoord (100 + 800) 100 800 1000 = 1000 := by
  exact (c5_mask_resolution_amended 800 600 drawOpaque wmask1 1000 750
    (fun _ _ => true) 0 100 800 1000).2.2.1 (by norm_num)

/-- The retry loop of detectObjects in api.ts, over the sequence of
attempt outcomes; the first argument of the recursion is the remaining
retries counter (maxRetries = 3 at the start), the second counts attempts
made, the third is lastError.  In the catch block the error retries after
a fixed delay when its message contains "loading" or "Rate limit" and
retries remain; when retries is at most 1 the error is thrown; otherwise
the loop also retries after the same fixed delay. -/
def detectObjectsGo (attempt : Nat → Except String String) :
    Nat → Nat → Option String → Except String String × Nat
  | 0, k, lastError =>
    (.error (lastError.getD "Failed to detect objects after multiple retries"), k)
  | r + 1, k, _ =>
    match attempt k with
    | .ok v => (.ok v, k + 1)
    | .error e =>
      if strContains e "loading" && decide (1 < r + 1) then
        detectObjectsGo attempt r (k + 1) (some e)
      else if strContains e "Rate limit" && decide (1 < r + 1) then
        detectObjectsGo attempt r (k + 1) (some e)
      else if r + 1 ≤ 1 then (.error e, k + 1)
      else detectObjectsGo attempt r (k + 1) (some e)

/-- detectObjects with its maxRetries = 3 budget; returns the outcome and
the number of attempts actually made. -/
def detectObjectsRun (attempt : Nat → Except String String) :
    Except String String × Nat :=
  detectObjectsGo attempt 3 0 none

/-- The retry loop of contentAwareFill in api.ts: a rate-limit-classified
error retries after a doubled delay, every other error also retries while
retries remain, and the last attempt throws. -/
def contentAwareFillGo (attempt : Nat → Except String String) :
    Nat → Nat → Option String → Except String String × Nat
  | 0, k, lastError =>
    (.error (lastError.getD "Failed to fill transparent areas after multiple retries"), k)
  | r + 1, k, _ =>
    match attempt k with
    | .ok v => (.ok v, k + 1)
    | .error e =>
      if strContains e "rate limit" && decide (1 < r + 1) then
        contentAwareFillGo attempt r (k + 1) (some e)
      else if decide (1 < r + 1) then
        contentAwareFillGo attempt r (k + 1) (some e)
      else (.error e, k + 1)

/-- contentAwareFill with its maxRetries = 3 budget. -/
def contentAwareFillRun (attempt : Nat → Except String String) :
    Except String String × Nat :=
  contentAwareFillGo attempt 3 0 none

/-- The auth-classified error message detectObjects throws on a 401/403
response. -/
def authErrMsg : String :=
  "Invalid Hugging Face API token. Please check your token configuration and ensure it has inference permissions."

lemma detectGo_const_step (m : String) (r2 k : Nat) (le : Option String) :
    detectObjectsGo (fun _ => .error m) (r2 + 2) k le
      = detectObjectsGo (fun _ => .error m) (r2 + 1) (k + 1) (some m) := by
  have hchain : ∀ (b1 b2 : Bool) (X Y : Except String String × Nat),
      (if b1 && decide (1 < r2 + 1 + 1) then X
       else if b2 && decide (1 < r2 + 1 + 1) then X
       else if r2 + 1 + 1 ≤ 1 then Y else X) = X := by
    intro b1 b2 X Y
    have h1 : (1 < r2 + 1 + 1) := by omega
    have h2 : ¬(r2 + 1 + 1 ≤ 1) := by omega
    cases b1 <;> cases b2 <;> simp [h1, h2]
  exact hchain (strContains m "loading") (strContains m "Rate limit") _ _

lemma detectGo_const_last (m : String) (k : Nat) (le : Option String) :
    detectObjectsGo (fun _ => .error m) 1 k le = (.error m, k + 1) := by
  have hchain : ∀ (b1 b2 : Bool) (X Y : Except String String × Nat),
      (if b1 && decide (1 < 0 + 1) then X
       else if b2 && decide (1 < 0 + 1) then X
       else if 0 + 1 ≤ 1 then Y else X) = Y := by
    intro b1 b2 X Y
    simp
  exact hchain (strContains m "loading") (strContains m "Rate limit") _ _

lemma detectGo_first_ok (attempt : Nat → Except String String) (v : String)
    (ha : attempt 0 = .ok v) :
    detectObjectsGo attempt 3 0 none = (.ok v, 1) := by
  simp only [detectObjectsGo, ha]

lemma fillGo_const_step (m : String) (r2 k : Nat) (le : Option String) :
    contentAwareFillGo (fun _ => .error m) (r2 + 2) k le
      = contentAwareFillGo (fun _ => .error m) (r2 + 1) (k + 1) (some m) := by
  have hchain : ∀ (b1 : Bool) (X Y : Except String String × Nat),
      (if b1 && decide (1 < r2 + 1 + 1) then X
       else if decide (1 < r2 + 1 + 1) = true then X
       else Y) = X := by
    intro b1 X Y
    have h1 : (1 < r2 + 1 + 1) := by omega
    cases b1 <;> simp [h1]
  exact hchain (strContains m "rate limit") _ _

lemma fillGo_const_last (m : String) (k : Nat) (le : Option String) :
    contentAwareFillGo (fun _ => .error m) 1 k le = (.error m, k + 1) := by
  have hchain : ∀ (b1 : Bool) (X Y : Except String String × Nat),
      (if b1 && decide (1 < 0 + 1) then X
       else if decide (1 < 0 + 1) = true then X
       else Y) = Y := by
    intro b1 X Y
    simp
  exact hchain (strContains m "rate limit") _ _

lemma fillGo_first_ok (attempt : Nat → Except String String) (v : String)
    (ha : attempt 0 = .ok v) :
    contentAwareFillGo attempt 3 0 none = (.ok v, 1) := by
  simp only [contentAwareFillGo, ha]

/-- Counterexample for C9: an auth-classified error (it contains neither
"loading" nor a rate-limit marker) does not propagate immediately: the
detectObjects loop and the contentAwareFill loop both run all 3 attempts
on it instead of 1. -/
theorem c9_auth_error_is_retried :
    (detectObjectsRun (fun _ => .error authErrMsg)).2 = 3
    ∧ (contentAwareFillRun (fun _ => .error authErrMsg)).2 = 3
    ∧ (3 : Nat) ≠ 1
    ∧ strContains authErrMsg "loading" = false
    ∧ strContains authErrMsg "Rate limit" = false
    ∧ strContains authErrMsg "rate limit" = false := by decide

/-- C9 (amended): the loops retry every error class while retries remain
— the classification only selects the delay — so a persistent error of
any class (auth, quota, policy, loading, rate limit, unknown) consumes
all 3 attempts and is then thrown, while a first-attempt success returns
after exactly one attempt. -/
theorem c9_retry_all_classes_amended :
    ∀ (m : String),
      (detectObjectsRun (fun _ => .error m) = (.error m, 3))
      ∧ (contentAwareFillRun (fun _ => .error m) = (.error m, 3))
      ∧ (∀ (attempt : Nat → Except String String) (v : String),
          attempt 0 = .ok v →
          detectObjectsRun attempt = (.ok v, 1)
          ∧ contentAwareFillRun attempt = (.ok v, 1)) := by
  intro m
  refine ⟨?_, ?_, ?_⟩
  · show detectObjectsGo (fun _ => .error m) 3 0 none = (.error m, 3)
    rw [detectGo_const_step m 1 0 none, detectGo_const_step m 0 1 (some m),
        detectGo_const_last m 2 (some m)]
  · show contentAwareFillGo (fun _ => .error m) 3 0 none = (.error m, 3)
    rw [fillGo_const_step m 1 0 none, fillGo_const_step m 0 1 (some m),
        fillGo_const_last m 2 (some m)]
  · intro attempt v ha
    exact ⟨detectGo_first_ok attempt v ha, fillGo_first_ok attempt v ha⟩

/-- Witness for C9 (amended): a first-attempt success returns after one
attempt in both loops. -/
theorem c9_witness :
    detectObjectsRun (fun _ => .ok "dets") = (.ok "dets", 1)
    ∧ contentAwareFillRun (fun _ => .ok "url") = (.ok "url", 1) := by
  exact ⟨((c9_retry_all_classes_amended "x").2.2 (fun _ => .ok "dets") "dets" rfl).1,
         ((c9_retry_all_classes_amended "x").2.2 (fun _ => .ok "url") "url" rfl).2⟩
